import Mathlib

/-!
Verification development for the crawl-and-extract engine in `src/app.py`
(class `AdvancedWebScraper` plus the `main` entry point).

The Python code is shallowly embedded as executable Lean definitions.
External effects are abstracted as explicit oracles:
  * `findall pat text` models `re.findall(pattern, text, re.IGNORECASE)`,
    returning `none` when the regex fails to compile or evaluate
    (the `except` path) and `some matches` otherwise;
  * `searchFetch url` models `session.get(search_url)` followed by
    `BeautifulSoup(...)` on a search-results page, returning the page handle
    or an error (any exception raised inside the per-page `try` block);
  * `fetchPage url` models `session.get(url)` / `raise_for_status` /
    `BeautifulSoup(...)` inside `scrape_page`, returning the parsed page or
    an error (any exception caught by `scrape_page`'s `try` block);
  * the wall-clock timestamp written by `datetime.now().strftime(...)` is a
    parameter, since it is nondeterministic.
Thread-pool fan-out is modelled sequentially in submission order: the code
collects `future.result()` in submission order, so the appended record list
is identical.
-/

namespace Scrapper

/-! ## Basic string machinery (over `List Char`) -/

/-- `leadMatch n h` is true when `n` is an initial segment of `h`. -/
def leadMatch : List Char → List Char → Bool
  | [], _ => true
  | _ :: _, [] => false
  | a :: as, b :: bs => a = b && leadMatch as bs

/-- `hasSub n h` is true when `n` occurs contiguously inside `h`;
models Python's `needle in haystack` for strings. -/
def hasSub (needle : List Char) : List Char → Bool
  | [] => leadMatch needle []
  | b :: bs => leadMatch needle (b :: bs) || hasSub needle bs

/-- Python `needle in haystack` on strings (substring test). -/
def substrB (needle hay : String) : Bool :=
  hasSub needle.data hay.data

/-- Split a character list at the first occurrence of `sep`;
`none` when `sep` does not occur. -/
def splitAtFirst (sep : Char) : List Char → Option (List Char × List Char)
  | [] => none
  | c :: rest =>
    if c = sep then some ([], rest)
    else
      match splitAtFirst sep rest with
      | some pq => some (c :: pq.1, pq.2)
      | none => none

/-- Take characters until one of `stops` is hit; the stop character stays in
the second component. -/
def breakAtAny (stops : List Char) : List Char → List Char × List Char
  | [] => ([], [])
  | c :: rest =>
    if c ∈ stops then ([], c :: rest)
    else
      let pq := breakAtAny stops rest
      (c :: pq.1, pq.2)

/-! ## `urllib.parse.urlparse` (the fragment used by the code) -/

/-- A URL scheme is one letter followed by letters, digits, `+`, `-`, `.`
(the rule `urllib.parse` uses to decide whether the part before `:` is a
scheme). -/
def schemeOk : List Char → Bool
  | [] => false
  | c :: rest => c.isAlpha && rest.all (fun d => d.isAlphanum || d = '+' || d = '-' || d = '.')

structure ParsedUrl where
  scheme : String
  netloc : String
  path : String
  query : String
deriving DecidableEq

/-- Model of `urllib.parse.urlparse` restricted to what the code inspects:
scheme, netloc, path and query.  The scheme is the lower-cased part before
the first `:` when it is shaped like a scheme; the netloc follows `//` up to
the first `/`, `?` or `#`; the fragment (after `#`) is dropped; the query
follows the first `?` of the remainder. -/
def urlparse (url : String) : ParsedUrl :=
  let cs := url.data
  let sp :=
    match splitAtFirst ':' cs with
    | some pq => if schemeOk pq.1 then (pq.1.map Char.toLower, pq.2) else (([] : List Char), cs)
    | none => (([] : List Char), cs)
  let np :=
    match sp.2 with
    | '/' :: '/' :: r => breakAtAny ['/', '?', '#'] r
    | rest => (([] : List Char), rest)
  let pq := (breakAtAny ['#'] np.2).1
  let pathQuery :=
    match splitAtFirst '?' pq with
    | some s => (s.1, s.2)
    | none => (pq, ([] : List Char))
  ⟨⟨sp.1⟩, ⟨np.1⟩, ⟨pathQuery.1⟩, ⟨pathQuery.2⟩⟩

/-- `AdvancedWebScraper.is_valid_url` (src/app.py:67-73):
`all([result.scheme, result.netloc]) and result.scheme in ['http', 'https']`. -/
def is_valid_url (url : String) : Bool :=
  let result := urlparse url
  (result.scheme ≠ "" && result.netloc ≠ "") &&
    (result.scheme = "http" || result.scheme = "https")

/-! ## `urllib.parse.quote_plus` -/

/-- UTF-8 bytes of a character, as natural numbers. -/
def utf8Bytes (c : Char) : List Nat :=
  let n := c.toNat
  if n < 0x80 then [n]
  else if n < 0x800 then [0xC0 + n / 64, 0x80 + n % 64]
  else if n < 0x10000 then [0xE0 + n / 4096, 0x80 + n / 64 % 64, 0x80 + n % 64]
  else [0xF0 + n / 262144, 0x80 + n / 4096 % 64, 0x80 + n / 64 % 64, 0x80 + n % 64]

/-- Upper-case hexadecimal digit, as `urllib`'s percent-encoding emits. -/
def hexDigitChar (n : Nat) : Char :=
  if n < 10 then Char.ofNat (48 + n) else Char.ofNat (55 + n)

/-- Encoding of one character under `quote_plus`: space becomes `+`,
ASCII alphanumerics and `-` `_` `.` `~` pass through, everything else is
percent-encoded byte by byte. -/
def quotePlusChar (c : Char) : List Char :=
  if c = ' ' then ['+']
  else if c.isAlphanum || c = '-' || c = '_' || c = '.' || c = '~' then [c]
  else (utf8Bytes c).foldl (fun acc b => acc ++ ['%', hexDigitChar (b / 16), hexDigitChar (b % 16)]) []

/-- Model of `urllib.parse.quote_plus`. -/
def quote_plus (s : String) : String :=
  ⟨s.data.foldl (fun acc c => acc ++ quotePlusChar c) []⟩

/-! ## `create_search_url` (src/app.py:75-84) -/

/-- `AdvancedWebScraper.create_search_url`.  `page` is a natural number; at
every call site of the source, `page ≥ 1` (it ranges over
`range(1, max_pages + 1)`), so truncated subtraction agrees with Python. -/
def create_search_url (base_url query : String) (page : Nat) : String :=
  let encoded_query := quote_plus query
  if substrB "duckduckgo" base_url then
    "https://html.duckduckgo.com/html/?q=" ++ encoded_query
  else if substrB "google" base_url then
    "https://www.google.com/search?q=" ++ encoded_query ++ "&start=" ++ toString ((page - 1) * 10)
  else if substrB "bing" base_url then
    "https://www.bing.com/search?q=" ++ encoded_query ++ "&first=" ++ toString ((page - 1) * 10)
  else
    base_url ++ "?q=" ++ encoded_query

/-! ## Python `dict` as an insertion-ordered association list -/

/-- Lookup in an insertion-ordered association list (Python `d[k]` /
`k in d`). -/
def lookupStr {α : Type} (k : String) : List (String × α) → Option α
  | [] => none
  | p :: rest => if p.1 = k then some p.2 else lookupStr k rest

/-- Python `d[k] = v`: overwrite in place when the key exists (the key keeps
its position, as in a Python `dict`), otherwise append at the end. -/
def dictInsert {α : Type} (d : List (String × α)) (k : String) (v : α) : List (String × α) :=
  if (lookupStr k d).isSome then
    d.map (fun p => if p.1 = k then (p.1, v) else p)
  else
    d ++ [(k, v)]

/-- Python `set(...)` then `list(...)`: drop duplicates.  (The model keeps
the last occurrence's position; the claims only depend on the result as a
set and on emptiness.) -/
def dedup : List String → List String
  | [] => []
  | x :: xs => if x ∈ dedup xs then dedup xs else x :: dedup xs

/-! ## `extract_data` (src/app.py:54-65) -/

/-- One iteration of the loop in `extract_data`:
`matches = set(re.findall(pattern, text, re.IGNORECASE))`;
`if matches: results[pattern_name] = list(matches)`;
on exception: `results[pattern_name] = []`.
`findall pat text = none` models the exception. -/
def extractStep (findall : String → String → Option (List String)) (text : String)
    (results : List (String × List String)) (p : String × String) : List (String × List String) :=
  match findall p.2 text with
  | some raw =>
    let ms := dedup raw
    if ms ≠ [] then dictInsert results p.1 ms else results
  | none => dictInsert results p.1 []

/-- `AdvancedWebScraper.extract_data`.  Patterns are the items of the Python
`patterns` dict in insertion order (so their names are distinct in any run
of the source). -/
def extract_data (findall : String → String → Option (List String)) (text : String)
    (patterns : List (String × String)) : List (String × List String) :=
  patterns.foldl (extractStep findall text) []

/-! ## `scrape_page` (src/app.py:86-120) -/

/-- A cell of the `extracted_data` dict: `url` and `timestamp` are strings,
selector fields and pattern matches are lists of strings. -/
inductive Value where
  | s (v : String)
  | l (vs : List String)
deriving DecidableEq

/-- The `extracted_data` dict of one page: an insertion-ordered mapping. -/
abbrev Record := List (String × Value)

/-- The parsed document of one scraped page, as `scrape_page` consumes it:
`selectTexts sel` is `[elem.get_text(strip=True) for elem in soup.select(sel)]`
and `text` is `soup.get_text()`. -/
structure FetchedPage where
  selectTexts : String → List String
  text : String

/-- The inner loop over one field's selector list (src/app.py:103-107):
`field_data.extend([...])` for each selector whose element list is
non-empty. -/
def fieldData (soup : FetchedPage) (selectors : List String) : List String :=
  selectors.foldl
    (fun field_data sel =>
      let elements := soup.selectTexts sel
      if elements ≠ [] then field_data ++ elements else field_data)
    []

/-- The loop over `selector_config.items()` (src/app.py:102-109):
`if field_data: extracted_data[field] = field_data`. -/
def applySelectors (soup : FetchedPage) (selector_config : List (String × List String))
    (d : Record) : Record :=
  selector_config.foldl
    (fun acc fs =>
      let fd := fieldData soup fs.2
      if fd ≠ [] then dictInsert acc fs.1 (Value.l fd) else acc)
    d

/-- Python `extracted_data.update(pattern_matches)`: insert every item in
order, overwriting existing keys in place. -/
def dictUpdate (d : Record) (u : List (String × Value)) : Record :=
  u.foldl (fun acc kv => dictInsert acc kv.1 kv.2) d

/-- `AdvancedWebScraper.scrape_page`.  `fetchPage url` stands for the
delay + `session.get` + `raise_for_status` + `BeautifulSoup` prelude; any
exception there is the `.error` case, answered by `return None`.
`timestamp` stands for `datetime.now().strftime("%Y-%m-%d %H:%M:%S")`. -/
def scrape_page (fetchPage : String → Except String FetchedPage)
    (findall : String → String → Option (List String)) (timestamp : String)
    (url : String) (patterns : List (String × String))
    (selector_config : List (String × List String)) : Option Record :=
  match fetchPage url with
  | .error _ => none
  | .ok soup =>
    let extracted_data : Record := [("url", Value.s url), ("timestamp", Value.s timestamp)]
    let extracted_data := applySelectors soup selector_config extracted_data
    let pattern_matches := extract_data findall soup.text patterns
    some (dictUpdate extracted_data (pattern_matches.map (fun q => (q.1, Value.l q.2))))

/-! ## `scrape_search_results` (src/app.py:122-167) -/

/-- A fetched-and-parsed search-results page: `selectLinks sel` is
`[link.get('href') for link in soup.select(sel)]`; an entry is `none` when
the anchor has no `href` attribute. -/
structure SearchPage where
  selectLinks : String → List (Option String)

/-- The `search_config` dict built in `main` (src/app.py:219-226). -/
structure SearchConfig where
  search_engine : String
  max_pages : Nat
  max_workers : Nat
  results_per_page : Nat
  result_selector : String
  excluded_domains : List String

/-- The filter on one link of the results page (src/app.py:141):
`href and is_valid_url(href) and not any(excluded in href for excluded in
search_config['excluded_domains'])`.  Note the exclusion test is a
substring test on the whole href. -/
def hrefOk (excluded : List String) (href : String) : Bool :=
  href ≠ "" && is_valid_url href && !(excluded.any (fun e => substrB e href))

/-- The URL-collection loop (src/app.py:138-142): keep, in order, every
present href that passes `hrefOk`. -/
def collectUrls (excluded : List String) (hrefs : List (Option String)) : List String :=
  hrefs.foldl
    (fun urls h =>
      match h with
      | none => urls
      | some href => if hrefOk excluded href then urls ++ [href] else urls)
    []

/-- The URLs submitted to the executor for one results page
(src/app.py:146-154): `urls[:search_config['results_per_page']]`, one
task per URL. -/
def scheduledTasks (cfg : SearchConfig) (hrefs : List (Option String)) : List String :=
  (collectUrls cfg.excluded_domains hrefs).take cfg.results_per_page

/-- Processing of one search page (the body of the `try` in
src/app.py:127-161).  Returns the GET requests attempted on this page
(the search URL, then each scheduled task's URL — `scrape_page` always
attempts its GET) and the records appended for this page.  A `searchFetch`
error is the `except` path: the page contributes no records and the loop
continues.  Worker results are gathered in submission order
(`for future in futures: future.result()`), and a result is appended only
when truthy (`if result`), i.e. non-`None` and non-empty. -/
def processPage (searchFetch : String → Except String SearchPage)
    (fetchPage : String → Except String FetchedPage)
    (findall : String → String → Option (List String)) (timestamp : String)
    (query : String) (patterns : List (String × String))
    (selector_config : List (String × List String)) (cfg : SearchConfig)
    (page : Nat) : List String × List Record :=
  let search_url := create_search_url cfg.search_engine query page
  match searchFetch search_url with
  | .error _ => ([search_url], [])
  | .ok soup =>
    let hrefs := soup.selectLinks cfg.result_selector
    let tasks := scheduledTasks cfg hrefs
    let pageResults := tasks.foldl
      (fun acc url =>
        match scrape_page fetchPage findall timestamp url patterns selector_config with
        | some result => if result ≠ [] then acc ++ [result] else acc
        | none => acc)
      []
    (search_url :: tasks, pageResults)

/-- The accumulated observable behaviour of one crawl: every GET request
attempted, in order, and `all_results`, in order. -/
structure RunResult where
  requests : List String
  results : List Record
deriving DecidableEq

/-- One iteration of the outer `for page in range(1, max_pages + 1)` loop. -/
def pageStep (searchFetch : String → Except String SearchPage)
    (fetchPage : String → Except String FetchedPage)
    (findall : String → String → Option (List String)) (timestamp : String)
    (query : String) (patterns : List (String × String))
    (selector_config : List (String × List String)) (cfg : SearchConfig)
    (acc : RunResult) (p : Nat) : RunResult :=
  let pr := processPage searchFetch fetchPage findall timestamp query patterns selector_config cfg (p + 1)
  ⟨acc.requests ++ pr.1, acc.results ++ pr.2⟩

/-- `AdvancedWebScraper.scrape_search_results` (src/app.py:122-167), up to
the final `pd.DataFrame(all_results)` (see `toDataFrame`).  Pages run for
`page = 1 .. max_pages`. -/
def scrape_search_results (searchFetch : String → Except String SearchPage)
    (fetchPage : String → Except String FetchedPage)
    (findall : String → String → Option (List String)) (timestamp : String)
    (query : String) (patterns : List (String × String))
    (selector_config : List (String × List String)) (cfg : SearchConfig) : RunResult :=
  (List.range cfg.max_pages).foldl
    (pageStep searchFetch fetchPage findall timestamp query patterns selector_config cfg)
    ⟨[], []⟩

/-! ## `pd.DataFrame(all_results)` (src/app.py:167) -/

/-- Column labels of `pd.DataFrame(list_of_dicts)`: the union of the
records' keys in order of first appearance. -/
def collectColumns (records : List Record) : List String :=
  records.foldl
    (fun cols r => r.foldl (fun cs kv => if kv.1 ∈ cs then cs else cs ++ [kv.1]) cols)
    []

/-- `pd.DataFrame(records)`: one row per record, one cell per column,
`none` (NaN) where a record lacks the column.  A list-valued field stays a
single cell; `pd.DataFrame` performs no explosion of list cells. -/
def toDataFrame (records : List Record) : List String × List (List (Option Value)) :=
  let cols := collectColumns records
  (cols, records.map (fun r => cols.map (fun c => lookupStr c r)))

/-! ## `main` (src/app.py:169-277), the part that starts a crawl -/

/-- The predefined patterns of `main` (src/app.py:190-194). -/
def default_patterns : List (String × String) :=
  [("emails", "[a-zA-Z0-9._%+-]+@[a-zA-Z0-9.-]+\\.[a-zA-Z]\x7b2,\x7d"),
   ("phones", "(?:\\+55|0)?(?:\\s|-)?(?:\\d\x7b2\x7d)(?:\\s|-)?(?:9\\s?)?\\d\x7b4\x7d(?:\\s|-)?\\d\x7b4\x7d"),
   ("websites", "https?://(?:www\\.)?[a-zA-Z0-9-]+\\.[a-zA-Z]\x7b2,\x7d(?:/[^\\s]*)?")]

/-- The `excluded_domains` list of `main` (src/app.py:225). -/
def mainExcluded : List String := [".pdf", ".doc", ".docx", ".xlsx", ".txt"]

/-- The `selector_config` dict of `main` (src/app.py:228-232). -/
def mainSelectorConfig : List (String × List String) :=
  [("title", ["h1", ".title", ".post-title"]),
   ("description", ["meta[name=\"description\"]", ".description", ".summary"]),
   ("content", ["article", ".content", ".post-content", "main"])]

/-- The click handler of the `Iniciar Scraping` button (src/app.py:214-241):
`if not query: st.warning(...); return` — an empty query shows a warning
and never constructs the scraper or calls `scrape_search_results`
(`none`); otherwise the crawl runs. -/
def startScraping (searchFetch : String → Except String SearchPage)
    (fetchPage : String → Except String FetchedPage)
    (findall : String → String → Option (List String)) (timestamp : String)
    (query : String) (patterns : List (String × String))
    (selector_config : List (String × List String)) (cfg : SearchConfig) : Option RunResult :=
  if query = "" then none
  else some (scrape_search_results searchFetch fetchPage findall timestamp query patterns selector_config cfg)

/-- The GET requests the program issues when the button is clicked:
none at all when the guard in `main` rejects the query. -/
def startRequests (searchFetch : String → Except String SearchPage)
    (fetchPage : String → Except String FetchedPage)
    (findall : String → String → Option (List String)) (timestamp : String)
    (query : String) (patterns : List (String × String))
    (selector_config : List (String × List String)) (cfg : SearchConfig) : List String :=
  match startScraping searchFetch fetchPage findall timestamp query patterns selector_config cfg with
  | none => []
  | some r => r.requests

/-! ## Site-traversal strategy (modelled from the spec) -/

/-- State of a site-traversal crawl: the FIFO frontier of pending URLs, the
visited set (kept as an ordered list), and the log of URLs actually
fetched, in order. -/
structure CrawlState where
  frontier : List String
  visited : List String
  fetched : List String

/-- Modelled from the spec: the enqueue step of the site-traversal
strategy, whose source is not under `src/` (only the search-fan-out
variant is).  Spec §3 Frontier / §4.5: newly discovered links are appended
at the tail, and "a URL is enqueued at most once (checked against both the
visited set and a pending-dedup set)". -/
def enqueueNew (frontier visited newLinks : List String) : List String :=
  newLinks.foldl (fun f v => if v ∈ visited ∨ v ∈ f then f else f ++ [v]) frontier

/-- Modelled from the spec: the site-traversal loop of §4.5, whose source
is not under `src/`.  Each iteration pops the head of the frontier (FIFO),
skips it if already visited, else fetches it (logged in `fetched`), marks
it visited, and — only while the visited count is below
`max_internal_pages` — enqueues the page's newly discovered internal links
at the tail.  The loop stops when the frontier is empty or the visited
count exceeds `max_internal_pages`.  `links u` abstracts internal-link
discovery on the fetched page; record extraction is orthogonal to the
dedup discipline and is not modelled here.  `fuel` bounds the number of
iterations (the spec's loop terminates; any sufficiently large fuel gives
the full run, and the claimed invariants hold at every fuel). -/
def crawlLoop (links : String → List String) (max_internal_pages : Nat) :
    Nat → CrawlState → CrawlState
  | 0, s => s
  | fuel + 1, s =>
    match s.frontier with
    | [] => s
    | u :: rest =>
      if s.visited.length > max_internal_pages then s
      else if u ∈ s.visited then
        crawlLoop links max_internal_pages fuel ⟨rest, s.visited, s.fetched⟩
      else
        let visited := s.visited ++ [u]
        let frontier :=
          if visited.length < max_internal_pages then enqueueNew rest visited (links u)
          else rest
        crawlLoop links max_internal_pages fuel ⟨frontier, visited, s.fetched ++ [u]⟩

/-- Modelled from the spec: a whole site-traversal crawl from a seed
(§4.5: initial frontier `[normalize(seed-url)]`, empty visited set). -/
def site_crawl (links : String → List String) (max_internal_pages fuel : Nat)
    (seed : String) : CrawlState :=
  crawlLoop links max_internal_pages fuel ⟨[seed], [], []⟩

/-- The invariant maintained by the site-traversal loop: the visited list
is exactly the fetch log, the fetch log has no duplicates, the frontier
has no duplicates, and no frontier entry is already visited. -/
def CrawlInv (s : CrawlState) : Prop :=
  s.visited = s.fetched ∧ s.fetched.Nodup ∧ s.frontier.Nodup ∧
    ∀ u ∈ s.frontier, u ∉ s.visited

/-! ## Spec-side comparator and concrete inputs used by the claims -/

/-- Follows the spec's words, for comparison with the code's link filter
(§4.4 search-result mode): keep a href iff it is a well-formed http(s) URL
and no configured excluded suffix occurs in its path or query. -/
def specLinkKeep (excluded : List String) (href : String) : Bool :=
  is_valid_url href &&
    !(excluded.any (fun e => substrB e (urlparse href).path || substrB e (urlparse href).query))

/-- The record of the spec's explode example:
`{url: "a", emails: ["x@y.com", "z@y.com"]}`. -/
def exampleRecord : Record :=
  [("url", Value.s "a"), ("emails", Value.l ["x@y.com", "z@y.com"])]

/-- A regex oracle where the malformed pattern `([` raises and every other
pattern matches `x@y.com` once. -/
def cexFindall (pat : String) (_text : String) : Option (List String) :=
  if pat = "([" then none else some ["x@y.com"]

/-- A search fetch that always fails (network error on every GET). -/
def errSearchFetch (_url : String) : Except String SearchPage :=
  .error "connection error"

/-- A page fetch that always fails (network error on every GET). -/
def errFetchPage (_url : String) : Except String FetchedPage :=
  .error "connection error"

/-- A page fetch that always succeeds with a page that has no selector
matches and body text `contact`. -/
def okFetchPage (_url : String) : Except String FetchedPage :=
  .ok ⟨fun _ => [], "contact"⟩

/-- A regex oracle where every pattern matches exactly `m`. -/
def constFindall (_pat : String) (_text : String) : Option (List String) :=
  some ["m"]

/-- A regex oracle where every pattern evaluates successfully with zero
matches. -/
def emptyFindall (_pat : String) (_text : String) : Option (List String) :=
  some []

/-- A duckduckgo search configuration with one page, as `main` builds it
with `max_pages = 1`, `max_workers = 3`, `results_per_page = 10`. -/
def duckConfig : SearchConfig :=
  ⟨"https://html.duckduckgo.com", 1, 3, 10, ".result__url", mainExcluded⟩

/-- The hrefs of the C7 scenario's results page: three links matched by the
result selector, one of which is excluded by the `.pdf` suffix. -/
def scenarioHrefs : List (Option String) :=
  [some "https://a.com/x", some "https://b.com/file.pdf", some "https://c.com/y"]

/-! ## Lemmas about the dict model -/

theorem lookupStr_append {α : Type} (k : String) (d e : List (String × α)) :
    lookupStr k (d ++ e) =
      if (lookupStr k d).isSome then lookupStr k d else lookupStr k e := by
  induction d with
  | nil => simp [lookupStr]
  | cons p rest ih =>
    by_cases h : p.1 = k <;> simp [lookupStr, h, ih]

theorem lookupStr_map_set_ne {α : Type} (d : List (String × α)) (k k' : String) (v : α)
    (h : k' ≠ k) :
    lookupStr k (d.map (fun p => if p.1 = k' then (p.1, v) else p)) = lookupStr k d := by
  induction d with
  | nil => rfl
  | cons p rest ih =>
    by_cases hp : p.1 = k'
    · simp [lookupStr, hp, h, ih]
    · by_cases hk : p.1 = k
      · simp [lookupStr, hp, hk, Ne.symm h]
      · simp [lookupStr, hp, hk, ih]

theorem dictInsert_lookup_ne {α : Type} (d : List (String × α)) (k k' : String) (v : α)
    (h : k' ≠ k) :
    lookupStr k (dictInsert d k' v) = lookupStr k d := by
  unfold dictInsert
  by_cases hs : (lookupStr k' d).isSome
  · rw [if_pos hs]
    exact lookupStr_map_set_ne d k k' v h
  · rw [if_neg hs]
    rw [lookupStr_append]
    have : lookupStr k [(k', v)] = none := by simp [lookupStr, h]
    rw [this]
    cases hl : lookupStr k d <;> simp

theorem lookupStr_map_set_self {α : Type} (d : List (String × α)) (k : String) (v : α)
    (hs : (lookupStr k d).isSome) :
    lookupStr k (d.map (fun p => if p.1 = k then (p.1, v) else p)) = some v := by
  induction d with
  | nil => simp [lookupStr] at hs
  | cons p rest ih =>
    by_cases hp : p.1 = k
    · simp [lookupStr, hp]
    · simp only [lookupStr, hp, if_false] at hs
      simp [lookupStr, hp, ih hs]

theorem dictInsert_lookup_self {α : Type} (d : List (String × α)) (k : String) (v : α) :
    lookupStr k (dictInsert d k v) = some v := by
  unfold dictInsert
  by_cases hs : (lookupStr k d).isSome
  · rw [if_pos hs]
    exact lookupStr_map_set_self d k v hs
  · rw [if_neg hs]
    rw [lookupStr_append, if_neg hs]
    simp [lookupStr]

theorem dictInsert_isSome {α : Type} (d : List (String × α)) (k key : String) (v : α)
    (h : (lookupStr key d).isSome) :
    (lookupStr key (dictInsert d k v)).isSome := by
  by_cases hk : k = key
  · subst hk; rw [dictInsert_lookup_self]; rfl
  · rw [dictInsert_lookup_ne d key k v hk]; exact h

theorem map_fst_set {α : Type} (d : List (String × α)) (k : String) (v : α) :
    (d.map (fun p => if p.1 = k then (p.1, v) else p)).map Prod.fst = d.map Prod.fst := by
  induction d with
  | nil => rfl
  | cons p rest ih =>
    by_cases hp : p.1 = k <;> simp [hp, ih]

theorem take2_shape {α : Type} (l : List α) (a b : α) (h : l.take 2 = [a, b]) :
    ∃ rest, l = a :: b :: rest := by
  cases l with
  | nil => simp at h
  | cons x t =>
    cases t with
    | nil => simp at h
    | cons y rest =>
      simp [List.take] at h
      exact ⟨rest, by rw [h.1, h.2]⟩

theorem dictInsert_take2 {α : Type} (d : List (String × α)) (k a b : String) (v : α)
    (h : (d.map Prod.fst).take 2 = [a, b]) :
    ((dictInsert d k v).map Prod.fst).take 2 = [a, b] := by
  unfold dictInsert
  by_cases hs : (lookupStr k d).isSome
  · rw [if_pos hs]
    rw [map_fst_set]; exact h
  · rw [if_neg hs]
    obtain ⟨rest, hrest⟩ := take2_shape _ a b h
    simp [hrest, List.take]

theorem mem_dictInsert {α : Type} (d : List (String × α)) (k : String) (v : α)
    (q : String × α) (h : q ∈ dictInsert d k v) : q ∈ d ∨ q.1 = k := by
  unfold dictInsert at h
  by_cases hs : (lookupStr k d).isSome
  · rw [if_pos hs] at h
    rcases List.mem_map.mp h with ⟨p, hp, hq⟩
    by_cases hpk : p.1 = k
    · right; rw [← hq]; simp [hpk]
    · left; rw [← hq]; simp [hpk]; exact hp
  · rw [if_neg hs] at h
    rcases List.mem_append.mp h with h | h
    · exact Or.inl h
    · right; simp at h; rw [h]

/-! ## Lemmas about `dedup` -/

theorem mem_dedup (a : String) (l : List String) : a ∈ dedup l ↔ a ∈ l := by
  induction l with
  | nil => simp [dedup]
  | cons x xs ih =>
    simp only [dedup]
    by_cases h : x ∈ dedup xs
    · simp only [h, if_true, List.mem_cons, ih]
      constructor
      · exact Or.inr
      · rintro (rfl | ha)
        · exact ih.mp h
        · exact ha
    · simp [h, List.mem_cons, ih]

theorem dedup_eq_self_of_nodup (l : List String) (h : l.Nodup) : dedup l = l := by
  induction l with
  | nil => rfl
  | cons x xs ih =>
    obtain ⟨hx, hxs⟩ := List.nodup_cons.mp h
    simp [dedup, ih hxs, hx]

/-! ## Lemmas about `applySelectors` and `dictUpdate` -/

theorem applySelectors_cons (soup : FetchedPage) (fs : String × List String)
    (rest : List (String × List String)) (d : Record) :
    applySelectors soup (fs :: rest) d =
      applySelectors soup rest
        (if fieldData soup fs.2 ≠ [] then dictInsert d fs.1 (Value.l (fieldData soup fs.2)) else d) := rfl

theorem applySelectors_lookup_ne (soup : FetchedPage) (key : String) :
    ∀ (sel : List (String × List String)) (d : Record),
      (∀ fs ∈ sel, fs.1 ≠ key) →
      lookupStr key (applySelectors soup sel d) = lookupStr key d := by
  intro sel
  induction sel with
  | nil => intro d _; rfl
  | cons fs rest ih =>
    intro d hsel
    rw [applySelectors_cons, ih _ (fun g hg => hsel g (List.mem_cons_of_mem fs hg))]
    by_cases hfd : fieldData soup fs.2 ≠ []
    · rw [if_pos hfd]
      exact dictInsert_lookup_ne d key fs.1 _ (hsel fs (List.mem_cons_self fs rest))
    · rw [if_neg hfd]

theorem applySelectors_isSome (soup : FetchedPage) (key : String) :
    ∀ (sel : List (String × List String)) (d : Record),
      (lookupStr key d).isSome →
      (lookupStr key (applySelectors soup sel d)).isSome := by
  intro sel
  induction sel with
  | nil => intro d h; exact h
  | cons fs rest ih =>
    intro d h
    rw [applySelectors_cons]
    apply ih
    by_cases hfd : fieldData soup fs.2 ≠ []
    · rw [if_pos hfd]
      exact dictInsert_isSome d fs.1 key _ h
    · rw [if_neg hfd]; exact h

theorem applySelectors_take2 (soup : FetchedPage) (a b : String) :
    ∀ (sel : List (String × List String)) (d : Record),
      (d.map Prod.fst).take 2 = [a, b] →
      ((applySelectors soup sel d).map Prod.fst).take 2 = [a, b] := by
  intro sel
  induction sel with
  | nil => intro d h; exact h
  | cons fs rest ih =>
    intro d h
    rw [applySelectors_cons]
    apply ih
    by_cases hfd : fieldData soup fs.2 ≠ []
    · rw [if_pos hfd]
      exact dictInsert_take2 d fs.1 a b _ h
    · rw [if_neg hfd]; exact h

theorem dictUpdate_cons (d : Record) (kv : String × Value) (rest : List (String × Value)) :
    dictUpdate d (kv :: rest) = dictUpdate (dictInsert d kv.1 kv.2) rest := rfl

theorem dictUpdate_lookup_ne (key : String) :
    ∀ (u : List (String × Value)) (d : Record),
      (∀ q ∈ u, q.1 ≠ key) →
      lookupStr key (dictUpdate d u) = lookupStr key d := by
  intro u
  induction u with
  | nil => intro d _; rfl
  | cons kv rest ih =>
    intro d hu
    rw [dictUpdate_cons, ih _ (fun g hg => hu g (List.mem_cons_of_mem kv hg))]
    exact dictInsert_lookup_ne d key kv.1 kv.2 (hu kv (List.mem_cons_self kv rest))

theorem dictUpdate_isSome (key : String) :
    ∀ (u : List (String × Value)) (d : Record),
      (lookupStr key d).isSome →
      (lookupStr key (dictUpdate d u)).isSome := by
  intro u
  induction u with
  | nil => intro d h; exact h
  | cons kv rest ih =>
    intro d h
    rw [dictUpdate_cons]
    exact ih _ (dictInsert_isSome d kv.1 key kv.2 h)

theorem dictUpdate_take2 (a b : String) :
    ∀ (u : List (String × Value)) (d : Record),
      (d.map Prod.fst).take 2 = [a, b] →
      ((dictUpdate d u).map Prod.fst).take 2 = [a, b] := by
  intro u
  induction u with
  | nil => intro d h; exact h
  | cons kv rest ih =>
    intro d h
    rw [dictUpdate_cons]
    exact ih _ (dictInsert_take2 d kv.1 a b kv.2 h)

/-! ## Lemmas about `extract_data` -/

theorem extract_foldl_lookup_ne (findall : String → String → Option (List String))
    (text : String) :
    ∀ (l : List (String × String)) (acc : List (String × List String)) (n : String),
      n ∉ l.map Prod.fst →
      lookupStr n (l.foldl (extractStep findall text) acc) = lookupStr n acc := by
  intro l
  induction l with
  | nil => intro acc n _; rfl
  | cons p rest ih =>
    intro acc n hn
    simp only [List.map_cons, List.mem_cons] at hn
    push_neg at hn
    rw [List.foldl_cons, ih _ n hn.2]
    unfold extractStep
    cases hf : findall p.2 text with
    | none => exact dictInsert_lookup_ne acc n p.1 [] (fun h => hn.1 h.symm)
    | some raw =>
      by_cases hms : dedup raw ≠ []
      · simp only [if_pos hms]
        exact dictInsert_lookup_ne acc n p.1 _ (fun h => hn.1 h.symm)
      · simp only [if_neg hms]

theorem extract_data_lookup (findall : String → String → Option (List String))
    (text : String) (patterns : List (String × String)) (n p : String)
    (hnd : (patterns.map Prod.fst).Nodup) (hmem : (n, p) ∈ patterns) :
    lookupStr n (extract_data findall text patterns) =
      match findall p text with
      | none => some []
      | some raw => if dedup raw = [] then none else some (dedup raw) := by
  obtain ⟨l1, l2, rfl⟩ := List.append_of_mem hmem
  have hmap : ((l1 ++ (n, p) :: l2).map Prod.fst) = l1.map Prod.fst ++ n :: l2.map Prod.fst := by
    simp
  rw [hmap] at hnd
  rw [List.nodup_append] at hnd
  have h1 : n ∉ l1.map Prod.fst := fun hin => hnd.2.2 hin (List.mem_cons_self _ _)
  have h2 : n ∉ l2.map Prod.fst := (List.nodup_cons.mp hnd.2.1).1
  unfold extract_data
  rw [List.foldl_append, List.foldl_cons]
  rw [extract_foldl_lookup_ne findall text l2 _ n h2]
  have hacc : lookupStr n (l1.foldl (extractStep findall text) []) = none := by
    rw [extract_foldl_lookup_ne findall text l1 [] n h1]; rfl
  have hstep : ∀ acc, extractStep findall text acc (n, p) =
      match findall p text with
      | none => dictInsert acc n []
      | some raw => if dedup raw ≠ [] then dictInsert acc n (dedup raw) else acc := by
    intro acc
    cases hf : findall p text with
    | none => simp [extractStep, hf]
    | some raw => simp [extractStep, hf]
  rw [hstep]
  cases hf : findall p text with
  | none => simp [dictInsert_lookup_self]
  | some raw =>
    by_cases hms : dedup raw = []
    · simp [hms, hacc]
    · simp [hms, dictInsert_lookup_self]

theorem extract_foldl_fst (findall : String → String → Option (List String)) (text : String) :
    ∀ (l : List (String × String)) (acc : List (String × List String)) (q : String × List String),
      q ∈ l.foldl (extractStep findall text) acc → q ∈ acc ∨ q.1 ∈ l.map Prod.fst := by
  intro l
  induction l with
  | nil => intro acc q h; exact Or.inl h
  | cons p rest ih =>
    intro acc q h
    rw [List.foldl_cons] at h
    rcases ih _ q h with h' | h'
    · revert h'
      unfold extractStep
      cases hf : findall p.2 text with
      | none =>
        intro h'
        rcases mem_dictInsert acc p.1 [] q h' with hq | hq
        · exact Or.inl hq
        · right; simp [hq]
      | some raw =>
        by_cases hms : dedup raw ≠ []
        · simp only [if_pos hms]
          intro h'
          rcases mem_dictInsert acc p.1 _ q h' with hq | hq
          · exact Or.inl hq
          · right; simp [hq]
        · simp only [if_neg hms]
          exact Or.inl
    · right; simp only [List.map_cons, List.mem_cons]; exact Or.inr h'

theorem mem_extract_fst (findall : String → String → Option (List String)) (text : String)
    (patterns : List (String × String)) (q : String × List String)
    (h : q ∈ extract_data findall text patterns) : q.1 ∈ patterns.map Prod.fst := by
  rcases extract_foldl_fst findall text patterns [] q h with h' | h'
  · simp at h'
  · exact h'

/-! ## Lemmas about `collectUrls` and the page loop -/

theorem mem_collectUrls_foldl (excluded : List String) :
    ∀ (hrefs : List (Option String)) (acc : List String) (u : String),
      u ∈ hrefs.foldl
          (fun urls h =>
            match h with
            | none => urls
            | some href => if hrefOk excluded href then urls ++ [href] else urls)
          acc ↔
        u ∈ acc ∨ (some u ∈ hrefs ∧ hrefOk excluded u = true) := by
  intro hrefs
  induction hrefs with
  | nil => intro acc u; simp
  | cons h rest ih =>
    intro acc u
    rw [List.foldl_cons]
    cases h with
    | none =>
      rw [ih]
      simp
    | some href =>
      by_cases hok : hrefOk excluded href = true
      · simp only [hok, if_true]
        rw [ih]
        by_cases hu : u = href
        · subst hu; simp [hok]
        · simp [List.mem_append, hu]
      · simp only [hok, if_false]
        rw [ih]
        by_cases hu : u = href
        · subst hu; simp [hok]
        · simp [hu]

theorem mem_collectUrls (excluded : List String) (hrefs : List (Option String)) (u : String) :
    u ∈ collectUrls excluded hrefs ↔ some u ∈ hrefs ∧ hrefOk excluded u = true := by
  unfold collectUrls
  rw [mem_collectUrls_foldl]
  simp

theorem pageStep_foldl (searchFetch : String → Except String SearchPage)
    (fetchPage : String → Except String FetchedPage)
    (findall : String → String → Option (List String)) (timestamp : String)
    (query : String) (patterns : List (String × String))
    (selector_config : List (String × List String)) (cfg : SearchConfig) :
    ∀ (l : List Nat) (acc : RunResult),
      l.foldl (pageStep searchFetch fetchPage findall timestamp query patterns selector_config cfg) acc =
        ⟨acc.requests ++
            (l.map (fun p => (processPage searchFetch fetchPage findall timestamp query patterns selector_config cfg (p + 1)).1)).flatten,
          acc.results ++
            (l.map (fun p => (processPage searchFetch fetchPage findall timestamp query patterns selector_config cfg (p + 1)).2)).flatten⟩ := by
  intro l
  induction l with
  | nil => intro acc; simp
  | cons p rest ih =>
    intro acc
    rw [List.foldl_cons, ih]
    simp [pageStep, List.append_assoc]

/-! ## Lemmas about the site-traversal model -/

theorem enqueueNew_inv :
    ∀ (newLinks f visited : List String),
      f.Nodup → (∀ v ∈ f, v ∉ visited) →
      (enqueueNew f visited newLinks).Nodup ∧
        ∀ v ∈ enqueueNew f visited newLinks, v ∉ visited := by
  intro newLinks
  induction newLinks with
  | nil => intro f visited h1 h2; exact ⟨h1, h2⟩
  | cons x rest ih =>
    intro f visited h1 h2
    have hstep : enqueueNew f visited (x :: rest) =
        enqueueNew (if x ∈ visited ∨ x ∈ f then f else f ++ [x]) visited rest := rfl
    rw [hstep]
    by_cases hx : x ∈ visited ∨ x ∈ f
    · rw [if_pos hx]
      exact ih f visited h1 h2
    · rw [if_neg hx]
      push_neg at hx
      have h1' : (f ++ [x]).Nodup := by
        rw [List.nodup_append]
        exact ⟨h1, List.nodup_singleton x, fun a ha hax => hx.2 (by simp at hax; rw [hax] at ha; exact ha)⟩
      have h2' : ∀ v ∈ f ++ [x], v ∉ visited := by
        intro v hv
        rcases List.mem_append.mp hv with hv | hv
        · exact h2 v hv
        · simp at hv; rw [hv]; exact hx.1
      exact ih (f ++ [x]) visited h1' h2'

theorem crawlLoop_nil (links : String → List String) (maxN n : Nat) (vis fe : List String) :
    crawlLoop links maxN (n + 1) ⟨[], vis, fe⟩ = ⟨[], vis, fe⟩ := rfl

theorem crawlLoop_cons (links : String → List String) (maxN n : Nat) (u : String)
    (rest vis fe : List String) :
    crawlLoop links maxN (n + 1) ⟨u :: rest, vis, fe⟩ =
      if vis.length > maxN then ⟨u :: rest, vis, fe⟩
      else if u ∈ vis then crawlLoop links maxN n ⟨rest, vis, fe⟩
      else
        crawlLoop links maxN n
          ⟨if (vis ++ [u]).length < maxN then enqueueNew rest (vis ++ [u]) (links u) else rest,
            vis ++ [u], fe ++ [u]⟩ := rfl

theorem crawlLoop_inv (links : String → List String) (maxN : Nat) :
    ∀ (fuel : Nat) (s : CrawlState), CrawlInv s → CrawlInv (crawlLoop links maxN fuel s) := by
  intro fuel
  induction fuel with
  | zero => intro s h; exact h
  | succ n ih =>
    rintro ⟨fr, vis, fe⟩ h
    obtain ⟨hvf, hnd, hfr, hdisj⟩ := h
    simp only at hvf hnd hfr hdisj
    cases fr with
    | nil => rw [crawlLoop_nil]; exact ⟨hvf, hnd, hfr, hdisj⟩
    | cons u rest =>
      rw [crawlLoop_cons]
      have hfr' : rest.Nodup := (List.nodup_cons.mp hfr).2
      have hu_rest : u ∉ rest := (List.nodup_cons.mp hfr).1
      by_cases hmax : vis.length > maxN
      · rw [if_pos hmax]
        exact ⟨hvf, hnd, hfr, hdisj⟩
      · rw [if_neg hmax]
        by_cases hvis : u ∈ vis
        · rw [if_pos hvis]
          exact ih _ ⟨hvf, hnd, hfr', fun v hv => hdisj v (List.mem_cons_of_mem u hv)⟩
        · rw [if_neg hvis]
          have hufetch : u ∉ fe := hvf ▸ hvis
          have hnd' : (fe ++ [u]).Nodup := by
            rw [List.nodup_append]
            exact ⟨hnd, List.nodup_singleton u,
              fun a ha hau => hufetch (by simp at hau; rw [hau] at ha; exact ha)⟩
          have hrest_disj : ∀ v ∈ rest, v ∉ vis ++ [u] := by
            intro v hv
            rw [List.mem_append]
            rintro (hv' | hv')
            · exact hdisj v (List.mem_cons_of_mem u hv) hv'
            · simp at hv'; rw [hv'] at hv; exact hu_rest hv
          apply ih
          refine ⟨by simp [hvf], hnd', ?_, ?_⟩
          · by_cases hlen : (vis ++ [u]).length < maxN
            · simp only [if_pos hlen]
              exact (enqueueNew_inv (links u) rest (vis ++ [u]) hfr' hrest_disj).1
            · simp only [if_neg hlen]
              exact hfr'
          · by_cases hlen : (vis ++ [u]).length < maxN
            · simp only [if_pos hlen]
              exact (enqueueNew_inv (links u) rest (vis ++ [u]) hfr' hrest_disj).2
            · simp only [if_neg hlen]
              exact hrest_disj

/-! ## Claim C1 — aggregation / explode semantics -/

/-- Claim C1, as stated, is false on the code: aggregating the single
record `exampleRecord` (`url = "a"`, `emails` with two values) yields
exactly 1 row, not the 2 rows the explode semantics demands. -/
theorem C1_explode_counterexample :
    (toDataFrame [exampleRecord]).2.length = 1 ∧
      ¬((toDataFrame [exampleRecord]).2.length = 2) := by
  decide

/-- Claim C1 (amended): `pd.DataFrame(all_results)` produces exactly one
row per record and performs no explosion: a list-valued field stays a
single cell, so the example record yields one row whose `emails` cell
holds both addresses. -/
theorem C1_aggregate_one_row_per_record :
    (∀ records : List Record, (toDataFrame records).2.length = records.length) ∧
      toDataFrame [exampleRecord] =
        (["url", "emails"], [[some (Value.s "a"), some (Value.l ["x@y.com", "z@y.com"])]]) := by
  constructor
  · intro records
    simp [toDataFrame]
  · decide

/-! ## Claim C2 — site-traversal dedup invariant -/

/-- Claim C2: in site-traversal mode (modelled from the spec, since only
the search-fan-out variant is under `src/`), no URL is ever fetched twice,
the visited set equals the fetch log, the visited count equals the number
of distinct URLs fetched, and the frontier never holds a duplicate or an
already-visited URL (a URL is enqueued at most once). -/
theorem C2_site_traversal_dedup (links : String → List String)
    (max_internal_pages fuel : Nat) (seed : String) :
    (site_crawl links max_internal_pages fuel seed).fetched.Nodup ∧
      (site_crawl links max_internal_pages fuel seed).visited =
        (site_crawl links max_internal_pages fuel seed).fetched ∧
      (site_crawl links max_internal_pages fuel seed).visited.length =
        (dedup (site_crawl links max_internal_pages fuel seed).fetched).length ∧
      (site_crawl links max_internal_pages fuel seed).frontier.Nodup ∧
      ∀ u ∈ (site_crawl links max_internal_pages fuel seed).frontier,
        u ∉ (site_crawl links max_internal_pages fuel seed).visited := by
  have h := crawlLoop_inv links max_internal_pages fuel ⟨[seed], [], []⟩
    ⟨rfl, List.nodup_nil, List.nodup_singleton seed, by simp⟩
  obtain ⟨hvf, hnd, hfr, hdisj⟩ := h
  unfold site_crawl
  refine ⟨hnd, hvf, ?_, hfr, hdisj⟩
  rw [hvf, dedup_eq_self_of_nodup _ hnd]

/-! ## Claim C3 — failing regex pattern -/

/-- Claim C3, as stated, is false on the code: with a malformed pattern
`([` next to a valid pattern, the failing pattern's name is present in the
result with an empty list (the `except` branch runs
`results[pattern_name] = []`), not absent. -/
theorem C3_failing_pattern_counterexample :
    lookupStr "bad_pattern"
        (extract_data cexFindall "body" [("bad_pattern", "(["), ("emails", "e")]) = some [] ∧
      lookupStr "emails"
        (extract_data cexFindall "body" [("bad_pattern", "(["), ("emails", "e")]) =
          some ["x@y.com"] := by
  decide

/-- Claim C3 (amended): a pattern whose regex fails to compile or evaluate
does not abort the others — the valid pattern still returns its matches —
but the failing pattern's name is present in the returned mapping with an
empty list, not absent. -/
theorem C3_failing_pattern_isolated
    (findall : String → String → Option (List String)) (text : String)
    (patterns : List (String × String)) (n p n' p' : String) (ms : List String)
    (hnd : (patterns.map Prod.fst).Nodup)
    (hmem : (n, p) ∈ patterns) (hfail : findall p text = none)
    (hmem' : (n', p') ∈ patterns) (hok : findall p' text = some ms)
    (hms : dedup ms ≠ []) :
    lookupStr n (extract_data findall text patterns) = some [] ∧
      lookupStr n' (extract_data findall text patterns) = some (dedup ms) := by
  constructor
  · rw [extract_data_lookup findall text patterns n p hnd hmem, hfail]
  · rw [extract_data_lookup findall text patterns n' p' hnd hmem', hok]
    simp [hms]

/-- Witness for C3: the amended behaviour at the concrete malformed
pattern `([` alongside the valid pattern `e`. -/
theorem C3_failing_pattern_isolated_witness :
    lookupStr "bad_pattern"
        (extract_data cexFindall "body" [("bad_pattern", "(["), ("emails", "e")]) = some [] ∧
      lookupStr "emails"
        (extract_data cexFindall "body" [("bad_pattern", "(["), ("emails", "e")]) =
          some (dedup ["x@y.com"]) :=
  C3_failing_pattern_isolated cexFindall "body" [("bad_pattern", "(["), ("emails", "e")]
    "bad_pattern" "([" "emails" "e" ["x@y.com"]
    (by decide) (by decide) (by decide) (by decide) (by decide) (by decide)

/-! ## Claim C4 — search-result link filter -/

/-- Claim C4, as stated, is false on the code: the URL
`https://a.pdf.example.com/page` is a well-formed https URL whose path and
query contain no excluded suffix (`.pdf` occurs only in the host), yet the
code's filter drops it, because line 141 tests `excluded in href` on the
whole URL string. -/
theorem C4_excluded_suffix_counterexample :
    hrefOk [".pdf"] "https://a.pdf.example.com/page" = false ∧
      specLinkKeep [".pdf"] "https://a.pdf.example.com/page" = true ∧
      collectUrls [".pdf"] [some "https://a.pdf.example.com/page"] = [] := by
  decide

/-- Claim C4 (amended): a collected href is kept iff it is present,
non-empty, a well-formed http(s) URL, and none of the excluded suffixes
occurs anywhere in the full URL string — host included — rather than only
in its path or query. -/
theorem C4_link_filter_characterization (excluded : List String)
    (hrefs : List (Option String)) (u : String) :
    u ∈ collectUrls excluded hrefs ↔
      some u ∈ hrefs ∧ u ≠ "" ∧ is_valid_url u = true ∧
        ∀ e ∈ excluded, substrB e u = false := by
  rw [mem_collectUrls]
  unfold hrefOk
  constructor
  · rintro ⟨hmem, hok⟩
    simp only [Bool.and_eq_true, Bool.not_eq_true', decide_eq_true_eq] at hok
    refine ⟨hmem, hok.1.1, hok.1.2, ?_⟩
    intro e he
    rcases hsub : substrB e u with _ | _
    · rfl
    · exfalso
      have hany : excluded.any (fun e => substrB e u) = true :=
        List.any_eq_true.mpr ⟨e, he, hsub⟩
      have h2 := hok.2
      rw [hany] at h2
      simp at h2
  · rintro ⟨hmem, hne, hvalid, hsubs⟩
    refine ⟨hmem, ?_⟩
    simp only [Bool.and_eq_true, Bool.not_eq_true', decide_eq_true_eq]
    refine ⟨⟨hne, hvalid⟩, ?_⟩
    rw [List.any_eq_false]
    intro e he
    simp [hsubs e he]

/-! ## Claim C5 — fail-fast on empty query -/

/-- Claim C5, as stated, is false on the code: the core crawl operation
`scrape_search_results`, invoked directly with an empty query, does issue
an HTTP request — the duckduckgo search GET for `?q=` — before anything
can fail. -/
theorem C5_core_fetches_on_empty_query :
    (scrape_search_results errSearchFetch errFetchPage emptyFindall "t" ""
        default_patterns mainSelectorConfig duckConfig).requests =
      ["https://html.duckduckgo.com/html/?q="] ∧
      ["https://html.duckduckgo.com/html/?q="] ≠ ([] : List String) := by
  decide

/-- Claim C5 (amended): the empty-query check lives in the `main` click
handler, not in the core operation: when scraping is started through
`main` with an empty query, the crawl is never invoked and no HTTP request
is issued; for any non-empty query the crawl runs.  (The core
`scrape_search_results` itself performs no validation; see the
counterexample.) -/
theorem C5_empty_query_guard (searchFetch : String → Except String SearchPage)
    (fetchPage : String → Except String FetchedPage)
    (findall : String → String → Option (List String)) (timestamp : String)
    (query : String) (patterns : List (String × String))
    (selector_config : List (String × List String)) (cfg : SearchConfig) :
    startRequests searchFetch fetchPage findall timestamp "" patterns selector_config cfg = [] ∧
      (startScraping searchFetch fetchPage findall timestamp query patterns selector_config cfg = none ↔
        query = "") := by
  constructor
  · rfl
  · unfold startScraping
    by_cases hq : query = ""
    · simp [hq]
    · simp [hq]

/-! ## Claim C6 — empty match set omitted -/

/-- Claim C6: a pattern that evaluates successfully with zero matches is
omitted entirely from the extraction result — its key is absent, never
present with an empty list. -/
theorem C6_empty_match_omitted (findall : String → String → Option (List String))
    (text : String) (patterns : List (String × String)) (n p : String)
    (hnd : (patterns.map Prod.fst).Nodup) (hmem : (n, p) ∈ patterns)
    (hzero : findall p text = some []) :
    lookupStr n (extract_data findall text patterns) = none := by
  rw [extract_data_lookup findall text patterns n p hnd hmem, hzero]
  simp [dedup]

/-- Witness for C6: the pattern `phones` matches nothing on the page, and
its key is absent from the result. -/
theorem C6_empty_match_omitted_witness :
    lookupStr "phones" (extract_data emptyFindall "page" [("phones", "x")]) = none :=
  C6_empty_match_omitted emptyFindall "page" [("phones", "x")] "phones" "x"
    (by decide) (by decide) rfl

/-! ## Claim C7 — tasks scheduled per results page -/

/-- Claim C7: the number of fetch-and-extract tasks scheduled for a
results page equals the minimum of the number of eligible links (valid and
non-excluded) and `results_per_page`; in particular, a page with 3
matching links of which one is excluded by the `.pdf` suffix schedules
exactly 2 tasks. -/
theorem C7_tasks_scheduled_min :
    (∀ (cfg : SearchConfig) (hrefs : List (Option String)),
        (scheduledTasks cfg hrefs).length =
          min (collectUrls cfg.excluded_domains hrefs).length cfg.results_per_page) ∧
      (scheduledTasks duckConfig scenarioHrefs).length = 2 := by
  constructor
  · intro cfg hrefs
    simp [scheduledTasks, List.length_take, Nat.min_comm]
  · decide

/-! ## Claim C8 — failure containment -/

/-- Claim C8: any failure while processing one candidate URL or one search
page is contained at that unit — a failing URL contributes no record, a
failing search page contributes zero records, and the overall result is
still the concatenation of the per-page contributions (the crawl always
returns a table). -/
theorem C8_failure_containment (searchFetch : String → Except String SearchPage)
    (fetchPage : String → Except String FetchedPage)
    (findall : String → String → Option (List String)) (timestamp : String)
    (query : String) (patterns : List (String × String))
    (selector_config : List (String × List String)) (cfg : SearchConfig)
    (p : Nat) (msgA : String) (url : String) (msgB : String)
    (hA : searchFetch (create_search_url cfg.search_engine query (p + 1)) = .error msgA)
    (hB : fetchPage url = .error msgB) :
    (scrape_search_results searchFetch fetchPage findall timestamp query patterns selector_config cfg).results =
        ((List.range cfg.max_pages).map
          (fun q => (processPage searchFetch fetchPage findall timestamp query patterns selector_config cfg (q + 1)).2)).flatten ∧
      (processPage searchFetch fetchPage findall timestamp query patterns selector_config cfg (p + 1)).2 = [] ∧
      scrape_page fetchPage findall timestamp url patterns selector_config = none := by
  refine ⟨?_, ?_, ?_⟩
  · unfold scrape_search_results
    rw [pageStep_foldl]
    simp
  · simp only [processPage, hA]
  · simp only [scrape_page, hB]

/-- Witness for C8: with oracles that fail every GET, the failing page
contributes zero records, the failing URL contributes no record, and the
run still returns its table of per-page contributions. -/
theorem C8_failure_containment_witness :
    (scrape_search_results errSearchFetch errFetchPage emptyFindall "t" "q"
          default_patterns mainSelectorConfig duckConfig).results =
        ((List.range duckConfig.max_pages).map
          (fun q => (processPage errSearchFetch errFetchPage emptyFindall "t" "q"
            default_patterns mainSelectorConfig duckConfig (q + 1)).2)).flatten ∧
      (processPage errSearchFetch errFetchPage emptyFindall "t" "q"
          default_patterns mainSelectorConfig duckConfig (0 + 1)).2 = [] ∧
      scrape_page errFetchPage emptyFindall "t" "https://u.com"
          default_patterns mainSelectorConfig = none :=
  C8_failure_containment errSearchFetch errFetchPage emptyFindall "t" "q"
    default_patterns mainSelectorConfig duckConfig 0 "connection error"
    "https://u.com" "connection error" rfl rfl

/-! ## Claim C9 — url and timestamp keys of a scraped record -/

/-- Claim C9, as stated, is false on the code: a user-supplied pattern
named `url` that matches overwrites the `url` value via
`extracted_data.update(pattern_matches)` — the record's `url` cell becomes
the match list `["m"]`, not the requested URL. -/
theorem C9_url_shadowing_counterexample :
    (scrape_page okFetchPage constFindall "t0" "https://u.com" [("url", "p")] []).map
        (fun r => lookupStr "url" r) = some (some (Value.l ["m"])) ∧
      Value.l ["m"] ≠ Value.s "https://u.com" := by
  decide

/-- Claim C9 (amended): every record of a successful per-page scrape has
`url` and `timestamp` as its first two keys, and — provided no
user-supplied selector field or pattern is named `url` or `timestamp` —
their values are the requested URL and the scrape timestamp; user fields
only add keys after these two. -/
theorem C9_url_timestamp_keys (fetchPage : String → Except String FetchedPage)
    (findall : String → String → Option (List String)) (timestamp : String)
    (url : String) (patterns : List (String × String))
    (selector_config : List (String × List String)) (soup : FetchedPage)
    (hfetch : fetchPage url = .ok soup)
    (hselU : ∀ fs ∈ selector_config, fs.1 ≠ "url")
    (hpatU : ∀ pp ∈ patterns, pp.1 ≠ "url")
    (hselT : ∀ fs ∈ selector_config, fs.1 ≠ "timestamp")
    (hpatT : ∀ pp ∈ patterns, pp.1 ≠ "timestamp") :
    (scrape_page fetchPage findall timestamp url patterns selector_config).map
        (fun r => (r.map Prod.fst).take 2) = some ["url", "timestamp"] ∧
      (scrape_page fetchPage findall timestamp url patterns selector_config).map
        (fun r => lookupStr "url" r) = some (some (Value.s url)) ∧
      (scrape_page fetchPage findall timestamp url patterns selector_config).map
        (fun r => lookupStr "timestamp" r) = some (some (Value.s timestamp)) := by
  have hne1 : ("url" : String) ≠ "timestamp" := by decide
  unfold scrape_page
  rw [hfetch]
  simp only [Option.map_some']
  have hupd : ∀ key : String, (∀ pp ∈ patterns, pp.1 ≠ key) →
      ∀ q ∈ (extract_data findall soup.text patterns).map (fun q => (q.1, Value.l q.2)),
        q.1 ≠ key := by
    intro key hkey q hq
    rcases List.mem_map.mp hq with ⟨g, hg, hgq⟩
    have hfst : g.1 ∈ patterns.map Prod.fst := mem_extract_fst findall soup.text patterns g hg
    rcases List.mem_map.mp hfst with ⟨pp, hpp, hppq⟩
    rw [← hgq]
    simp only []
    rw [← hppq]
    exact hkey pp hpp
  refine ⟨?_, ?_, ?_⟩
  · congr 1
    apply dictUpdate_take2
    apply applySelectors_take2
    rfl
  · congr 1
    rw [dictUpdate_lookup_ne "url" _ _ (hupd "url" hpatU)]
    rw [applySelectors_lookup_ne soup "url" selector_config _ hselU]
    simp [lookupStr]
  · congr 1
    rw [dictUpdate_lookup_ne "timestamp" _ _ (hupd "timestamp" hpatT)]
    rw [applySelectors_lookup_ne soup "timestamp" selector_config _ hselT]
    simp [lookupStr, hne1]

/-- Witness for C9: a concrete successful scrape with ordinary pattern and
selector names keeps `url` and `timestamp` as the first two keys with
their expected values. -/
theorem C9_url_timestamp_keys_witness :
    (scrape_page okFetchPage emptyFindall "t0" "https://u.com" [("emails", "e")]
        [("title", ["h1"])]).map (fun r => (r.map Prod.fst).take 2) = some ["url", "timestamp"] ∧
      (scrape_page okFetchPage emptyFindall "t0" "https://u.com" [("emails", "e")]
        [("title", ["h1"])]).map (fun r => lookupStr "url" r) = some (some (Value.s "https://u.com")) ∧
      (scrape_page okFetchPage emptyFindall "t0" "https://u.com" [("emails", "e")]
        [("title", ["h1"])]).map (fun r => lookupStr "timestamp" r) = some (some (Value.s "t0")) :=
  C9_url_timestamp_keys okFetchPage emptyFindall "t0" "https://u.com" [("emails", "e")]
    [("title", ["h1"])] ⟨fun _ => [], "contact"⟩ rfl
    (by decide) (by decide) (by decide) (by decide)

/-! ## Claim C10 — duckduckgo search URL ignores the page number -/

/-- Claim C10: for the duckduckgo engine, the constructed search URL is
independent of the page number, so every page of a multi-page search
fetches the same results listing. -/
theorem C10_duckduckgo_page_independent (base_url query : String) (p1 p2 : Nat)
    (h : substrB "duckduckgo" base_url = true) :
    create_search_url base_url query p1 = create_search_url base_url query p2 := by
  simp [create_search_url, h]

/-- Witness for C10: the duckduckgo engine of `main` produces the same URL
for pages 1 and 2. -/
theorem C10_duckduckgo_page_independent_witness :
    create_search_url "https://html.duckduckgo.com" "abc" 1 =
      create_search_url "https://html.duckduckgo.com" "abc" 2 :=
  C10_duckduckgo_page_independent "https://html.duckduckgo.com" "abc" 1 2 (by decide)

end Scrapper

